import Mathlib

/-!
Verification development for the `mailjet_state_reporter` program
(`src/mailjet_state_reporter/__init__.py`).

The Python source is shallowly embedded below.  Conventions of the embedding:

* Python dicts are association lists `List (String × α)` preserving insertion
  order; `alookup`, `setIdx`, `incrAt`, `appendAt` mirror `d[k]` reads,
  `d[k] = v` writes, `d[k] = d.get(k, 0) + 1` and `d.setdefault(k, []).append`.
* A Python expression that may raise is embedded in `Except PyError`;
  `req o` is a dict subscript: it raises `KeyError` when the key is absent.
* All HTTP traffic goes through oracles: a `Resp` models the outcome of one
  `requests.get` combined with `json.loads` of its body (transport error,
  JSON decode error, or a body with optional `Count`/`Data` fields), and
  `NetResp` models the outcome of the one `requests.post` in `send_report`.
* `strftime` rendering (calendar arithmetic is external to the program) is
  modelled by injective encodings `time_from_timestamp` / `time_from_iso_format`
  that record exactly the three inputs the source passes to the formatter:
  timestamp, format string and timezone name.
* Record values are uniformly strings; the program treats them as opaque
  payloads except for equality on `Status` and pass-through formatting.
-/

namespace MailjetReport

/-- Python exceptions that the embedded code can raise. -/
inductive PyError where
  | keyError
  | jsonDecodeError
  | requestException
  | attributeError
  | typeError
  deriving DecidableEq, Repr

instance exceptDecEq {ε α : Type} [DecidableEq ε] [DecidableEq α] :
    DecidableEq (Except ε α) := fun x y =>
  match x, y with
  | .ok a, .ok b =>
      if h : a = b then .isTrue (by rw [h]) else .isFalse (by simp [h])
  | .error a, .error b =>
      if h : a = b then .isTrue (by rw [h]) else .isFalse (by simp [h])
  | .ok _, .error _ => .isFalse (fun h => Except.noConfusion h)
  | .error _, .ok _ => .isFalse (fun h => Except.noConfusion h)

/-- A provider record: a JSON object, embedded as an ordered field list. -/
abbrev Record := List (String × String)

/-- Ordered-dict lookup, mirroring Python `d.get(k)` / `k in d`. -/
def alookup {α : Type} : List (String × α) → String → Option α
  | [], _ => none
  | (k, v) :: rest, key => if k = key then some v else alookup rest key

/-- Ordered-dict write `d[k] = v`: replaces in place, appends when absent. -/
def setIdx {α : Type} : List (String × α) → String → α → List (String × α)
  | [], key, v => [(key, v)]
  | (k, w) :: rest, key, v =>
      if k = key then (k, v) :: rest else (k, w) :: setIdx rest key v

/-- `d[k] = d.get(k, 0) + 1` on an ordered dict of counters. -/
def incrAt : List (String × Nat) → String → List (String × Nat)
  | [], key => [(key, 1)]
  | (k, n) :: rest, key =>
      if k = key then (k, n + 1) :: rest else (k, n) :: incrAt rest key

/-- `d.setdefault(k, []).append(x)` on an ordered dict of lists. -/
def appendAt {α : Type} : List (String × List α) → String → α → List (String × List α)
  | [], key, x => [(key, [x])]
  | (k, xs) :: rest, key, x =>
      if k = key then (k, xs ++ [x]) :: rest else (k, xs) :: appendAt rest key x

/-- Dict subscript `d[k]`: raises `KeyError` when the key is missing. -/
def req {α : Type} : Option α → Except PyError α
  | some a => .ok a
  | none => .error .keyError

/-- Outcome of one `requests.get` plus `json.loads(response.content)`:
either the call raised, the body failed to parse, or a JSON body with
optional `Count` and `Data` members was obtained. -/
inductive Resp where
  | transport
  | badJson
  | body (count : Option Nat) (data : Option (List Record))
  deriving DecidableEq

/-- `BATCH_LIMIT` constant of the source. -/
def BATCH_LIMIT : Nat := 200

/--
The `while True:` paging loop of `get_mailjet_data_list` (source lines 65-76).
`pages limit offset` is the oracle for the page request issued with query
parameters `Limit`/`Offset`; the loop always passes `BATCH_LIMIT` as limit.
The request has no try/except around it: a transport failure, a JSON decode
failure or a missing `Count`/`Data` member raises out of the function.
The issued `(limit, offset)` pairs are accumulated in `reqs` so that theorems
can speak about which page requests were made.  Termination mirrors the code:
the loop breaks when a page reports zero records or the accumulated offset
reaches `count`, so `count - offset` shrinks on every continued iteration.
-/
def fetchLoop (pages : Nat → Nat → Resp) (count : Nat) (offset : Nat)
    (reqs : List (Nat × Nat)) (acc : List Record) :
    Except PyError (List (Nat × Nat) × List Record) :=
  let reqs2 := reqs ++ [(BATCH_LIMIT, offset)]
  match pages BATCH_LIMIT offset with
  | .transport => .error .requestException
  | .badJson => .error .jsonDecodeError
  | .body none _ => .error .keyError
  | .body (some _) none => .error .keyError
  | .body (some bc) (some d) =>
      let acc2 := acc ++ d
      let offset2 := offset + bc
      if bc = 0 ∨ count ≤ offset2 then .ok (reqs2, acc2)
      else fetchLoop pages count offset2 reqs2 acc2
termination_by count - offset
decreasing_by
  rename_i hbreak
  push_neg at hbreak
  omega

/--
`get_mailjet_data_list` (source lines 47-76).  `probe` is the oracle for the
`countOnly=1` request; only this request is guarded by try/except, and any of
its three failure modes (`RequestException`, `JSONDecodeError`, `KeyError`
for a missing `Count`) is caught and turned into `None`.  On a successful
probe the paging loop runs unguarded.  The result additionally carries the
list of `(Limit, Offset)` page requests issued.
-/
def get_mailjet_data_list (probe : Resp) (pages : Nat → Nat → Resp) :
    Except PyError (Option (List (Nat × Nat) × List Record)) :=
  match probe with
  | .transport => .ok none
  | .badJson => .ok none
  | .body none _ => .ok none
  | .body (some count) _ => (fetchLoop pages count 0 [] []).map some

/-- An honest paginated server over a fixed record list `L`: a page request
returns the slice of `L` at the given offset, at most `limit` long, with the
page `Count` equal to the number of records in the page. -/
def server (L : List Record) (limit offset : Nat) : Resp :=
  let page := (L.drop offset).take limit
  .body (some page.length) (some page)

/-- The `(Limit, Offset)` pairs the paging loop issues against an honest
server that reports `count` total records, starting from `offset`. -/
def reqOffsets (count offset : Nat) : List (Nat × Nat) :=
  if count ≤ offset + BATCH_LIMIT then [(BATCH_LIMIT, offset)]
  else (BATCH_LIMIT, offset) :: reqOffsets count (offset + BATCH_LIMIT)
termination_by count - offset
decreasing_by
  rename_i h
  push_neg at h
  simp only [BATCH_LIMIT] at *
  omega

/-- One entry of `subaccount_data` as built by `get_subaccount_data`
(source lines 86-93): the provider-assigned id and the scoped credentials.
The numeric id is kept as its decimal string, matching the later
`str(subaccount_data[...]["id"])`. -/
structure DirEntry where
  id : String
  api_id : String
  api_secret : String
  deriving DecidableEq

/--
`get_subaccount_data` (source lines 79-93): one directory fetch with master
credentials.  A `None` from the fetcher is logged and returned as `none`;
an exception from the fetcher, or a `KeyError` while the dict comprehension
reads `Name`/`ID`/`APIKey`/`SecretKey` of a directory record, propagates.
The comprehension builds a dict keyed by `Name`, later entries overriding
earlier ones.
-/
def get_subaccount_data (probe : Resp) (pages : Nat → Nat → Resp) :
    Except PyError (Option (List (String × DirEntry))) := do
  match ← get_mailjet_data_list probe pages with
  | none => pure none
  | some (_, recs) =>
      let dir ← recs.foldlM (fun dir rec => do
        let name ← req (alookup rec "Name")
        let id ← req (alookup rec "ID")
        let apiKey ← req (alookup rec "APIKey")
        let secret ← req (alookup rec "SecretKey")
        pure (setIdx dir name ⟨id, apiKey, secret⟩)) ([] : List (String × DirEntry))
      pure (some dir)

/-- `time_from_timestamp` (source lines 96-102):
`datetime.fromtimestamp(ts).astimezone(ZoneInfo(tz)).strftime(fmt)`.
Calendar rendering is external; the embedding records the three inputs
injectively. -/
def time_from_timestamp (timestamp : Int) (time_format : String) (timezone : String) : String :=
  "[ts:" ++ toString timestamp ++ "|" ++ time_format ++ "|" ++ timezone ++ "]"

/-- `time_from_iso_format` (source lines 105-111), same modelling as
`time_from_timestamp` but for an ISO date-time string input. -/
def time_from_iso_format (date_time : String) (time_format : String) (timezone : String) : String :=
  "[iso:" ++ date_time ++ "|" ++ time_format ++ "|" ++ timezone ++ "]"

/-- Scanner for Python `str.format` with anonymous placeholders: each
`\x7b\x7d` pair consumes the next argument, all other characters pass
through. -/
def pyFormatAux : List Char → List String → String
  | [], _ => ""
  | '\x7b' :: '\x7d' :: rest, a :: args => a ++ pyFormatAux rest args
  | '\x7b' :: '\x7d' :: rest, [] => pyFormatAux rest []
  | c :: rest, args => String.singleton c ++ pyFormatAux rest args

/-- Python `template.format(args...)` restricted to anonymous `\x7b\x7d`
placeholders. -/
def pyFormat (template : String) (args : List String) : String :=
  pyFormatAux template.data args

/-- `global_settings` of the configuration document; a missing mapping is
identified with a mapping with no keys. -/
structure GlobalSettings where
  timezone : Option String := none
  time_format : Option String := none
  report_days : Option String := none
  default_max_report_days : Option Int := none
  deriving DecidableEq

/-- One profile of the configuration (`profiles` values).  The `valid` flag
is the `profile["valid"] = True` mark set by the profile validation loop. -/
structure ProfileCfg where
  template_id : Option Int := none
  subject : Option String := none
  from_email : Option String := none
  from_name : Option String := none
  time_format : Option String := none
  report_in_detail : Option (List String) := none
  skip_if_no_details : Option Bool := none
  skip_if_no_data : Option Bool := none
  valid : Bool := false
  deriving DecidableEq

/-- One recipient entry of a subaccount report configuration. -/
structure RecipientCfg where
  to_email : Option String := none
  to_name : Option String := none
  deriving DecidableEq

/-- One entry of `subaccount_reports` as it appears in the configuration. -/
structure SubaccountCfg where
  name : Option String := none
  profile : Option String := none
  report_days : Option String := none
  skip_if_no_details : Option Bool := none
  skip_if_no_data : Option Bool := none
  recipients : Option (List RecipientCfg) := none
  deriving DecidableEq

/-- The loaded configuration document.  Missing top-level members are
identified with their empty defaults exactly as `config.get(key, {})` does. -/
structure Config where
  global_settings : GlobalSettings := {}
  status_translations : List (String × String) := []
  profiles : List (String × ProfileCfg) := []
  subaccount_reports : List SubaccountCfg := []

/-- A subaccount entry after the validation loop ran over it: the source
mutates the entry in place, adding `profile_details`, overwriting
`report_days` and setting the `valid` mark. -/
structure EnrichedSub where
  name : Option String
  profile : Option String
  report_days : Option String
  skip_if_no_details : Option Bool
  skip_if_no_data : Option Bool
  recipients : Option (List RecipientCfg)
  profile_details : Option ProfileCfg
  valid : Bool
  deriving DecidableEq

/-- The message-stats dict built per subaccount: status code to count. -/
abbrev StatsMap := List (String × Nat)

/-- The message-details dict built per subaccount: status code to the list of
itemized detail rows. -/
abbrev DetailsMap := List (String × List Record)

/-- The single outbound message `send_report` posts (source lines 211-240). -/
structure Message where
  from_email : String
  from_name : String
  recipients : List (String × String)
  template_id : Int
  subject : String
  delivery_stats : String
  bounce_data : String
  rep_start : String
  rep_end : String
  sub_account : String
  deriving DecidableEq

/-- Outcome of the one `requests.post` of `send_report`: the call raised, or
an HTTP status code came back. -/
inductive NetResp where
  | transport
  | status (code : Nat)
  deriving DecidableEq

/-- The profile validation loop body (source lines 314-335): a profile is
marked valid iff `template_id`, `subject`, `from_email` and `from_name` are
all present. -/
def validateProfile (p : ProfileCfg) : ProfileCfg :=
  if p.template_id.isNone then p
  else if p.subject.isNone then p
  else if p.from_email.isNone then p
  else if p.from_name.isNone then p
  else { p with valid := true }

/-- The subaccount validation loop body (source lines 343-390).  Each check
that the source answers with `continue` leaves the entry without the `valid`
mark; `profile_details` and `report_days` are set as soon as the profile
checks pass, even when a later recipient check fails. -/
def validateSub (profiles : List (String × ProfileCfg)) (report_days_default : String)
    (c : SubaccountCfg) : EnrichedSub :=
  let base : EnrichedSub :=
    { name := c.name, profile := c.profile, report_days := c.report_days,
      skip_if_no_details := c.skip_if_no_details, skip_if_no_data := c.skip_if_no_data,
      recipients := c.recipients, profile_details := none, valid := false }
  match c.name with
  | none => base
  | some _ =>
    match c.profile with
    | none => base
    | some p =>
      match alookup profiles p with
      | none => base
      | some prof =>
        if prof.valid = false then base
        else
          let enriched := { base with
            profile_details := some prof,
            report_days := some (c.report_days.getD report_days_default) }
          match c.recipients with
          | none => enriched
          | some recips =>
            if recips.any (fun r => r.to_email.isNone || r.to_name.isNone) then enriched
            else { enriched with valid := true }

/-- `gen_message_stats_html` (source lines 114-126): one table row per status
in dict order, the label going through the translation table. -/
def gen_message_stats_html (config : Config) (message_stats : StatsMap) : String :=
  let trans := config.status_translations
  "<table>" ++
    String.join (message_stats.map (fun p =>
      "<tr><td style=\"width:200px;\">" ++ ((alookup trans p.1).getD p.1) ++
        "</td><td>" ++ toString p.2 ++ "</td></tr>")) ++
    "</table>"

/-- `REPORT_DETAILS_FIELDS` constant of the source: detail-row field names
with their cell style attributes, in iteration order. -/
def REPORT_DETAILS_FIELDS : List (String × String) :=
  [("date_time", "style=\"white-space:nowrap;\""),
   ("contact", "style=\"white-space:nowrap;width:200px;\""),
   ("subject", "")]

/-- The cells of one detail row (inner loop of source lines 147-155): each of
the three fields is read with a raising subscript `message[field]`, and the
`date_time` value is passed through `time_from_iso_format`. -/
def bounceCells (subaccount_time_format timezone : String) (message : Record) :
    Except PyError String :=
  REPORT_DETAILS_FIELDS.foldlM (fun acc fs => do
    let raw ← req (alookup message fs.1)
    let content :=
      if fs.1 = "date_time" then time_from_iso_format raw subaccount_time_format timezone
      else raw
    pure (acc ++ "<td " ++ fs.2 ++ ">" ++ content ++ "</td>")) ""

/-- One turn of the row loop (source lines 145-156): append one rendered
table row. -/
def bounceRow (subaccount_time_format timezone : String) (acc : String)
    (message : Record) : Except PyError String := do
  let cells ← bounceCells subaccount_time_format timezone message
  pure (acc ++ "<tr>" ++ cells ++ "</tr>")

/-- The rows of one status section (loop of source lines 145-156). -/
def bounceRows (subaccount_time_format timezone : String) (messages : List Record) :
    Except PyError String :=
  messages.foldlM (bounceRow subaccount_time_format timezone) ""

/-- One turn of the status loop of `gen_bounce_data_html` (source lines
139-158): append one status heading, header row and rendered table. -/
def bounceSection (config : Config) (subaccount_time_format : String) (acc : String)
    (p : String × List Record) : Except PyError String := do
  let trans := config.status_translations
  let timezone := config.global_settings.timezone.getD "Europe/Amsterdam"
  let headerCells := String.join (REPORT_DETAILS_FIELDS.map (fun fs =>
    "<th>" ++ ((alookup trans fs.1).getD fs.1) ++ "</th>"))
  let rows ← bounceRows subaccount_time_format timezone p.2
  pure (acc ++ "<h4>" ++ ((alookup trans p.1).getD p.1) ++ ":</h4>" ++
    "<table><tr>" ++ headerCells ++ "</tr>" ++ rows ++ "</table>")

/-- `gen_bounce_data_html` (source lines 129-160): one section per detail
status in dict order; an overall empty result is replaced by the literal
string `undefined` (Python `or`). -/
def gen_bounce_data_html (config : Config) (subaccount_time_format : String)
    (message_details : DetailsMap) : Except PyError String := do
  let html ← message_details.foldlM (bounceSection config subaccount_time_format) ""
  pure (if html.isEmpty then "undefined" else html)

/-- The recipient list comprehension of `send_report` (source lines
218-221): each entry subscripts `to_email` and `to_name`. -/
def recipientPairs (recipients : List RecipientCfg) :
    Except PyError (List (String × String)) :=
  recipients.mapM (fun r => do
    let e ← req r.to_email
    let n ← req r.to_name
    pure (e, n))

/--
`send_report` (source lines 163-263).  The result carries the list of posted
messages (empty when no network call was made) and the boolean the function
returns; exceptions propagate as `Except.error`.  Steps, in source order:
subscript `subaccount["profile_details"]` (evaluated inside the defaults of
the two `subaccount.get(...)` calls), the skip policy check, the time-format
resolution, the stats fragment, the subject, the message construction with
its raising subscripts, and finally the post whose non-200 status or
transport failure yields `false`.
-/
def send_report (config : Config) (subaccount : EnrichedSub) (message_stats : StatsMap)
    (message_details : DetailsMap) (last_ts current_ts : Int)
    (net : Message → NetResp) : Except PyError (List Message × Bool) := do
  let gs := config.global_settings
  let trans := config.status_translations
  let profile_details ← req subaccount.profile_details
  let skip_if_no_details :=
    subaccount.skip_if_no_details.getD (profile_details.skip_if_no_details.getD false)
  let skip_if_no_data :=
    subaccount.skip_if_no_data.getD (profile_details.skip_if_no_data.getD false)
  if (skip_if_no_details && message_details.isEmpty) ||
      (skip_if_no_data && message_stats.isEmpty) then
    return ([], false)
  let timezone := gs.timezone.getD "Europe/Amsterdam"
  let report_time_format := gs.time_format.getD "%Y-%m-%d %H:%M:%S"
  let subaccount_time_format := profile_details.time_format.getD report_time_format
  let subject_date_format := gs.time_format.getD "%Y-%m-%d"
  let delivery_stats_html :=
    if message_stats.isEmpty then (alookup trans "no_data").getD "No data"
    else gen_message_stats_html config message_stats
  let subject_date := time_from_timestamp current_ts subject_date_format timezone
  let subject_template ← req profile_details.subject
  let name ← req subaccount.name
  let subject := pyFormat subject_template [name, subject_date]
  let from_email ← req profile_details.from_email
  let from_name ← req profile_details.from_name
  let recipientCfgs ← req subaccount.recipients
  let recipients ← recipientPairs recipientCfgs
  let template_id ← req profile_details.template_id
  let bounce_data ← gen_bounce_data_html config subaccount_time_format message_details
  let rep_start := time_from_timestamp last_ts report_time_format timezone
  let rep_end := time_from_timestamp current_ts report_time_format timezone
  let message : Message :=
    { from_email := from_email, from_name := from_name, recipients := recipients,
      template_id := template_id, subject := subject,
      delivery_stats := delivery_stats_html, bounce_data := bounce_data,
      rep_start := rep_start, rep_end := rep_end, sub_account := name }
  match net message with
  | .transport => pure ([message], false)
  | .status code => pure ([message], if code = 200 then true else false)

/-- `MESSAGE_FIELDS` constant of the source: raw provider field name to
canonical detail-row field name, in iteration order. -/
def MESSAGE_FIELDS : List (String × String) :=
  [("ID", "id"), ("ArrivedAt", "date_time"), ("ContactAlt", "contact"),
   ("Status", "state"), ("Subject", "subject")]

/-- One detail row (dict comprehension of source lines 447-451): for each
`MESSAGE_FIELDS` entry whose raw key is present in the record, the canonical
name is mapped to the raw value; missing fields are silently omitted. -/
def detailRow (message : Record) : Record :=
  MESSAGE_FIELDS.filterMap (fun fh => (alookup message fh.1).map (fun v => (fh.2, v)))

/-- The message-data aggregation loop (source lines 444-455), with the two
dicts threaded as accumulators.  `message["Status"]` is a raising subscript;
a record whose status is in `report_details_fields` is additionally itemized
before the count is incremented. -/
def processMessages (report_details_fields : List String) :
    List Record → StatsMap → DetailsMap → Except PyError (StatsMap × DetailsMap)
  | [], stats, details => .ok (stats, details)
  | message :: rest, stats, details =>
      match alookup message "Status" with
      | none => .error .keyError
      | some message_status =>
          let details2 :=
            if report_details_fields.contains message_status then
              appendAt details message_status (detailRow message)
            else details
          let stats2 := incrAt stats message_status
          processMessages report_details_fields rest stats2 details2

/-- The persisted watermark mapping: subaccount id (string) to Unix seconds. -/
abbrev StateMap := List (String × Int)

/-- What the state file contains when the run starts. -/
inductive StateFileContent where
  | missing
  | unparsable
  | jsonNull
  | jsonMap (m : StateMap)
  deriving DecidableEq

/-- The state loading block (source lines 293-304).  Only `FileNotFoundError`
is caught (fresh empty dict); content that fails to parse as JSON, such as an
empty file, raises `json.JSONDecodeError` uncaught; a parsed JSON `null`
leaves the `state` variable holding `None` after an informational log line,
with no reassignment. -/
def loadState : StateFileContent → Except PyError (Option StateMap)
  | .missing => .ok (some [])
  | .unparsable => .error .jsonDecodeError
  | .jsonNull => .ok none
  | .jsonMap m => .ok (some m)

/-- `state.get(subaccount_id, default_last_ts)` (source line 420): an
`AttributeError` when `state` is `None`, the looked-up or default watermark
otherwise. -/
def stateGet (state : Option StateMap) (subaccount_id : String) (default_last_ts : Int) :
    Except PyError Int :=
  match state with
  | none => .error .attributeError
  | some m => .ok ((alookup m subaccount_id).getD default_last_ts)

/-- `state[subaccount_id] = current_ts` (source line 470): a `TypeError` when
`state` is `None`, an in-place ordered-dict write otherwise. -/
def pySetItem (state : Option StateMap) (subaccount_id : String) (v : Int) :
    Except PyError (Option StateMap) :=
  match state with
  | none => .error .typeError
  | some m => .ok (some (setIdx m subaccount_id v))

/-- Observable events of one run, used to state trace properties. -/
inductive Ev where
  | skippedInvalid (name : String)
  | skippedSchedule (name : String)
  | skippedNoDir (name : String)
  | fetchFailed (name : String)
  | reportSkipped (name : String)
  | reported (name : String)
  | stateWrite (state : Option StateMap)
  deriving DecidableEq

/-- Whether an event is the state-file write. -/
def Ev.isWrite : Ev → Bool
  | .stateWrite _ => true
  | _ => false

/-- The network oracles of one run: the apikey directory request and, keyed by
subaccount name, the message-data requests and the send endpoint. -/
structure Oracle where
  dirProbe : Resp
  dirPages : Nat → Nat → Resp
  msgProbe : String → Resp
  msgPages : String → Nat → Nat → Resp
  sendNet : String → Message → NetResp

/-- Everything the processing loop body reads besides the mutable state:
the configuration, the validated profiles dict, the credential directory,
the weekday character, the run timestamp and the default watermark. -/
structure Ctx where
  config : Config
  profiles : List (String × ProfileCfg)
  dir : List (String × DirEntry)
  day_of_week : Char
  current_ts : Int
  default_last_ts : Int
  oracle : Oracle

/-- Result of one processing-loop iteration: the subaccount id when it was
resolved, the boolean `send_report` returned when it was called, and the
state after the iteration. -/
structure StepOut where
  sid : Option String
  dispatched : Option Bool
  state : Option StateMap

/-- The tail of the processing loop body (source lines 443-470): aggregate
the fetched records, call `send_report`, and on `True` commit the watermark
`state[subaccount_id] = current_ts` in memory. -/
def dispatchStep (ctx : Ctx) (state : Option StateMap) (sub : EnrichedSub) (name : String)
    (subaccount_id : String) (last_ts : Int) (report_details_fields : List String)
    (message_data : List Record) : List Ev × Except PyError StepOut :=
  match processMessages report_details_fields message_data [] [] with
  | .error e => ([], .error e)
  | .ok (stats, details) =>
      match send_report ctx.config sub stats details last_ts ctx.current_ts
          (ctx.oracle.sendNet name) with
      | .error e => ([], .error e)
      | .ok (_, false) =>
          ([.reportSkipped name], .ok ⟨some subaccount_id, some false, state⟩)
      | .ok (_, true) =>
          match pySetItem state subaccount_id ctx.current_ts with
          | .error e => ([], .error e)
          | .ok state2 =>
              ([.reported name], .ok ⟨some subaccount_id, some true, state2⟩)

/--
The processing loop body (source lines 399-470) for one subaccount entry.
In source order: the `valid` check whose warning log subscripts
`subaccount["name"]`, the weekday check `day_of_week not in report_days`
(the needle `str(isoweekday())` is a single character, so the Python
substring test is character membership), the directory membership check, credential and id extraction, the
watermark read, the `report_in_detail` set, the message fetch, the
aggregation, `send_report`, and on `True` the in-memory watermark commit.
Every `continue` of the source yields `.ok` with the state unchanged;
uncaught exceptions yield `.error`.
-/
def processOne (ctx : Ctx) (state : Option StateMap) (sub : EnrichedSub) :
    List Ev × Except PyError StepOut :=
  if sub.valid = false then
    match sub.name with
    | none => ([], .error .keyError)
    | some n => ([.skippedInvalid n], .ok ⟨none, none, state⟩)
  else
    match sub.report_days with
    | none => ([], .error .keyError)
    | some rd =>
      if ¬ rd.toList.contains ctx.day_of_week then
        match sub.name with
        | none => ([], .error .keyError)
        | some n => ([.skippedSchedule n], .ok ⟨none, none, state⟩)
      else
        match sub.name with
        | none => ([], .error .keyError)
        | some name =>
          match alookup ctx.dir name with
          | none => ([.skippedNoDir name], .ok ⟨none, none, state⟩)
          | some entry =>
            let subaccount_id := entry.id
            match stateGet state subaccount_id ctx.default_last_ts with
            | .error e => ([], .error e)
            | .ok last_ts =>
              match alookup ctx.profiles ((sub.profile).getD "") with
              | none => ([], .error .keyError)
              | some prof =>
                let report_details_fields := prof.report_in_detail.getD []
                match get_mailjet_data_list (ctx.oracle.msgProbe name)
                    (ctx.oracle.msgPages name) with
                | .error e => ([], .error e)
                | .ok none => ([.fetchFailed name], .ok ⟨some subaccount_id, none, state⟩)
                | .ok (some (_, message_data)) =>
                    dispatchStep ctx state sub name subaccount_id last_ts
                      report_details_fields message_data

/-- The processing loop (source lines 399-470) over the validated entries,
threading the state and accumulating the trace; an uncaught exception aborts
the remaining iterations. -/
def runLoop (ctx : Ctx) : List EnrichedSub → Option StateMap →
    List Ev × Except PyError (Option StateMap)
  | [], state => ([], .ok state)
  | sub :: rest, state =>
      match processOne ctx state sub with
      | (tr, .error e) => (tr, .error e)
      | (tr, .ok out) =>
          match runLoop ctx rest out.state with
          | (tr2, r2) => (tr ++ tr2, r2)

/-- How a run ends. -/
inductive RunResult where
  | exited (code : Nat)
  | crashed (e : PyError)
  | completed (state : Option StateMap)
  deriving DecidableEq

/-- The end of `main` (source lines 472-477): when the processing loop ends
with an uncaught exception the run crashes with no write; when it completes,
the state file is opened, fully rewritten by `json.dump`, flushed and
fsynced — one write, emitted as the final `stateWrite` event. -/
def finishRun (loopOut : List Ev × Except PyError (Option StateMap)) :
    List Ev × RunResult :=
  match loopOut with
  | (tr, .error e) => (tr, .crashed e)
  | (tr, .ok state2) => (tr ++ [.stateWrite state2], .completed state2)

/--
`main` (source lines 266-477), from the point where the configuration
document is in hand.  In source order: global settings and defaults, the
state load, the `profiles` emptiness exit, the run timestamp and default
watermark, the profile validation loop, the `subaccount_reports` emptiness
exit, the subaccount validation loop, the one directory fetch whose `None`
exits and whose exception crashes, the processing loop, and on normal loop
completion the single state-file write (open, `json.dump`, `flush`,
`os.fsync`), emitted as the final `stateWrite` event.
-/
def main (config : Config) (stateContent : StateFileContent) (day_of_week : Char)
    (current_ts : Int) (oracle : Oracle) : List Ev × RunResult :=
  let gs := config.global_settings
  let report_days_default := gs.report_days.getD "01234"
  let default_max_report_days := gs.default_max_report_days.getD 1
  match loadState stateContent with
  | .error e => ([], .crashed e)
  | .ok state =>
    if config.profiles.isEmpty then ([], .exited 1)
    else
      let default_last_ts := current_ts - 86400 * default_max_report_days
      let profiles := config.profiles.map (fun p => (p.1, validateProfile p.2))
      if config.subaccount_reports.isEmpty then ([], .exited 1)
      else
        let subs := config.subaccount_reports.map (validateSub profiles report_days_default)
        match get_subaccount_data oracle.dirProbe oracle.dirPages with
        | .error e => ([], .crashed e)
        | .ok none => ([], .exited 1)
        | .ok (some dir) =>
          let ctx : Ctx :=
            { config := config, profiles := profiles, dir := dir,
              day_of_week := day_of_week, current_ts := current_ts,
              default_last_ts := default_last_ts, oracle := oracle }
          finishRun (runLoop ctx subs state)

/-!  Claim theorems. -/

/-- C2, counterexample: with a successful count probe reporting 450 records
and a first page request that fails at the transport layer,
`get_mailjet_data_list` does not return `None`: the `RequestException`
propagates out of the function, uncaught. -/
theorem fetch_page_failure_raises :
    get_mailjet_data_list (Resp.body (some 450) none) (fun _ _ => Resp.transport) =
      .error .requestException ∧
    get_mailjet_data_list (Resp.body (some 450) none) (fun _ _ => Resp.transport) ≠
      .ok none := by
  constructor
  · simp [get_mailjet_data_list, fetchLoop, Except.map]
  · simp [get_mailjet_data_list, fetchLoop, Except.map]

/-- C2 (amended): only the count probe is guarded.  A probe failure at the
transport layer, on a malformed body, or with the `Count` member missing is
caught and returned as `None`; a page request that fails after a successful
probe is not contained: the exception propagates out of
`get_mailjet_data_list`, crossing the per-subaccount processing boundary. -/
theorem fetch_probe_failure_contained
    (pages : Nat → Nat → Resp) (d e : Option (List Record)) (count : Nat)
    (hpage : pages BATCH_LIMIT 0 = Resp.transport) :
    get_mailjet_data_list Resp.transport pages = .ok none ∧
    get_mailjet_data_list Resp.badJson pages = .ok none ∧
    get_mailjet_data_list (Resp.body none d) pages = .ok none ∧
    get_mailjet_data_list (Resp.body (some count) e) pages = .error .requestException := by
  refine ⟨rfl, rfl, rfl, ?_⟩
  rw [get_mailjet_data_list, fetchLoop, hpage]
  rfl

/-- Closed instance of `fetch_probe_failure_contained`. -/
theorem fetch_probe_failure_contained_witness :
    get_mailjet_data_list Resp.transport (fun _ _ => Resp.transport) = .ok none ∧
    get_mailjet_data_list Resp.badJson (fun _ _ => Resp.transport) = .ok none ∧
    get_mailjet_data_list (Resp.body none none) (fun _ _ => Resp.transport) = .ok none ∧
    get_mailjet_data_list (Resp.body (some 7) none) (fun _ _ => Resp.transport) =
      .error .requestException :=
  fetch_probe_failure_contained (fun _ _ => Resp.transport) none none 7 rfl

/-- C4: when the effective `skip_if_no_details` flag (subaccount value,
defaulting to the profile value, defaulting to false) is set and the details
map is empty, or the effective `skip_if_no_data` flag is set and the stats
map is empty, `send_report` returns `false` with no message posted: the skip
is decided before the message is built and is a regular `false` return, not
an error. -/
theorem skip_policy_no_network (config : Config) (sub : EnrichedSub)
    (stats : StatsMap) (details : DetailsMap) (last_ts current_ts : Int)
    (net : Message → NetResp) (pd : ProfileCfg)
    (hpd : sub.profile_details = some pd)
    (hskip :
      (sub.skip_if_no_details.getD (pd.skip_if_no_details.getD false) = true ∧ details = []) ∨
      (sub.skip_if_no_data.getD (pd.skip_if_no_data.getD false) = true ∧ stats = [])) :
    send_report config sub stats details last_ts current_ts net = .ok ([], false) := by
  unfold send_report
  rw [hpd]
  rcases hskip with ⟨h1, h2⟩ | ⟨h1, h2⟩ <;> subst h2 <;>
    simp [req, h1, bind, Except.bind, pure, Except.pure]

/-- Fixture: a validated subaccount whose profile sets `skip_if_no_data`. -/
def subSkipData : EnrichedSub :=
  { name := some "acct", profile := some "p", report_days := some "1",
    skip_if_no_details := none, skip_if_no_data := none, recipients := some [],
    profile_details := some { skip_if_no_data := some true }, valid := true }

/-- Fixture: a validated subaccount that itself sets `skip_if_no_details`. -/
def subSkipDetails : EnrichedSub :=
  { name := some "acct", profile := some "p", report_days := some "1",
    skip_if_no_details := some true, skip_if_no_data := none, recipients := some [],
    profile_details := some {}, valid := true }

/-- Closed instance of `skip_policy_no_network`: a subaccount whose profile
sets `skip_if_no_data`, with an empty stats map, and a subaccount that sets
`skip_if_no_details` itself, with stats present but no details. -/
theorem skip_policy_no_network_witness :
    send_report {} subSkipData [] [] 0 100 (fun _ => NetResp.status 200) = .ok ([], false) ∧
    send_report {} subSkipDetails [("sent", 1)] [] 0 100 (fun _ => NetResp.status 200) =
      .ok ([], false) :=
  ⟨skip_policy_no_network _ _ _ _ _ _ _ _ rfl (Or.inr ⟨rfl, rfl⟩),
   skip_policy_no_network _ _ _ _ _ _ _ _ rfl (Or.inl ⟨rfl, rfl⟩)⟩

/-- Against the honest server over `L`, the paging loop started at `offset`
succeeds, issues exactly the requests `reqOffsets` describes and accumulates
exactly the remaining records of `L`, in order. -/
theorem fetchLoop_server (L : List Record) :
    ∀ fuel offset reqs acc, L.length - offset < fuel →
      fetchLoop (server L) L.length offset reqs acc =
        .ok (reqs ++ reqOffsets L.length offset, acc ++ L.drop offset) := by
  intro fuel
  induction fuel with
  | zero => intro offset reqs acc h; omega
  | succ f IH =>
    intro offset reqs acc h
    rw [fetchLoop]
    simp only [server]
    rcases Nat.lt_or_ge offset L.length with hlt | hge
    · rcases Nat.lt_or_ge BATCH_LIMIT (L.length - offset) with hbig | hsmall
      · -- full page: the loop continues at offset + BATCH_LIMIT
        have hbc : ((L.drop offset).take BATCH_LIMIT).length = BATCH_LIMIT := by
          simp only [List.length_take, List.length_drop]
          omega
        rw [hbc]
        rw [if_neg (by simp only [BATCH_LIMIT] at *; omega)]
        rw [IH (offset + BATCH_LIMIT) _ _ (by simp only [BATCH_LIMIT] at *; omega)]
        have hreq : reqOffsets L.length offset =
            (BATCH_LIMIT, offset) :: reqOffsets L.length (offset + BATCH_LIMIT) := by
          rw [reqOffsets]
          rw [if_neg (by simp only [BATCH_LIMIT] at *; omega)]
        rw [hreq]
        have hdrop : L.drop (offset + BATCH_LIMIT) = (L.drop offset).drop BATCH_LIMIT := by
          rw [List.drop_drop, Nat.add_comm]
        rw [hdrop, List.append_assoc, List.append_assoc,
          List.take_append_drop (BATCH_LIMIT) (L.drop offset)]
        simp
      · -- final, possibly short page: the loop breaks with the tail of L
        have hbc : ((L.drop offset).take BATCH_LIMIT).length = L.length - offset := by
          simp only [List.length_take, List.length_drop]
          omega
        have htake : (L.drop offset).take BATCH_LIMIT = L.drop offset := by
          apply List.take_of_length_le
          simp only [List.length_drop]
          omega
        rw [hbc]
        rw [if_pos (by omega)]
        rw [reqOffsets]
        rw [if_pos (by simp only [BATCH_LIMIT] at *; omega), htake]
    · -- offset at or past the end: the page is empty and the loop breaks
      have hnil : L.drop offset = [] := List.drop_eq_nil_of_le hge
      rw [hnil]
      simp only [List.take_nil, List.length_nil]
      rw [if_pos (Or.inl trivial), reqOffsets, if_pos (by simp only [BATCH_LIMIT]; omega)]

/-- C5: against an honest server holding 450 records with the probe
reporting 450, the fetcher issues exactly three page requests, all with
`Limit = 200`, at offsets 0, 200 and 400, and returns all 450 records in
server order; a zero probed count yields an empty record list, not an error;
and in general, against an honest server over any record list `M`, the
fetcher issues the fixed-size page requests `reqOffsets` describes, paging
until a page is exhausted or the accumulated offset reaches the probed
count, and returns exactly `M`. -/
theorem pagination_complete (L : List Record) (d d0 : Option (List Record))
    (h : L.length = 450) :
    get_mailjet_data_list (Resp.body (some 450) d) (server L) =
      .ok (some ([(200, 0), (200, 200), (200, 400)], L)) ∧
    get_mailjet_data_list (Resp.body (some 0) d0) (server []) =
      .ok (some ([(200, 0)], [])) ∧
    ∀ M : List Record, get_mailjet_data_list (Resp.body (some M.length) d) (server M) =
      .ok (some (reqOffsets M.length 0, M)) := by
  have hgen : ∀ M : List Record,
      get_mailjet_data_list (Resp.body (some M.length) d) (server M) =
        .ok (some (reqOffsets M.length 0, M)) := by
    intro M
    rw [get_mailjet_data_list,
      fetchLoop_server M (M.length + 1) 0 [] [] (by omega)]
    simp [Except.map]
  refine ⟨?_, ?_, hgen⟩
  · have := hgen L
    rw [h] at this
    rw [this]
    have : reqOffsets 450 0 = [(200, 0), (200, 200), (200, 400)] := by
      rw [reqOffsets, if_neg (by norm_num [BATCH_LIMIT]),
        reqOffsets, if_neg (by norm_num [BATCH_LIMIT]),
        reqOffsets, if_pos (by norm_num [BATCH_LIMIT])]
      norm_num [BATCH_LIMIT]
    rw [this]
  · have h0 := fetchLoop_server ([] : List Record) 1 0 [] [] (by simp)
    simp only [List.length_nil, List.drop_nil, List.append_nil, List.nil_append] at h0
    rw [get_mailjet_data_list, h0]
    rw [reqOffsets, if_pos (by norm_num [BATCH_LIMIT])]
    simp [Except.map, BATCH_LIMIT]

/-- Closed instance of `pagination_complete` at a 450-record list. -/
theorem pagination_complete_witness :
    (List.replicate 450 ([] : Record)).length = 450 ∧
    get_mailjet_data_list (Resp.body (some 450) none)
        (server (List.replicate 450 ([] : Record))) =
      .ok (some ([(200, 0), (200, 200), (200, 400)], List.replicate 450 ([] : Record))) :=
  ⟨List.length_replicate 450 ([] : Record),
   (pagination_complete (List.replicate 450 ([] : Record)) none none
     (List.length_replicate 450 ([] : Record))).1⟩

theorem alookup_setIdx {α : Type} (m : List (String × α)) (k k2 : String) (v : α) :
    alookup (setIdx m k v) k2 = if k = k2 then some v else alookup m k2 := by
  induction m with
  | nil => by_cases h : k = k2 <;> simp [setIdx, alookup, h]
  | cons p rest ih =>
    obtain ⟨a, w⟩ := p
    by_cases hak : a = k
    · subst hak
      by_cases hk2 : a = k2 <;> simp [setIdx, alookup, hk2]
    · have hka : ¬ k = a := fun h => hak h.symm
      by_cases hk2 : a = k2
      · subst hk2
        simp [setIdx, alookup, hak, hka]
      · simp [setIdx, alookup, hak, hk2, ih]

theorem alookup_incrAt (m : StatsMap) (k k2 : String) :
    alookup (incrAt m k) k2 =
      if k = k2 then some ((alookup m k).getD 0 + 1) else alookup m k2 := by
  induction m with
  | nil => by_cases h : k = k2 <;> simp [incrAt, alookup, h]
  | cons p rest ih =>
    obtain ⟨a, n⟩ := p
    by_cases hak : a = k
    · subst hak
      by_cases hk2 : a = k2 <;> simp [incrAt, alookup, hk2]
    · have hka : ¬ k = a := fun h => hak h.symm
      by_cases hk2 : a = k2
      · subst hk2
        simp [incrAt, alookup, hak, hka]
      · simp only [incrAt, if_neg hak, alookup, if_neg hk2, ih]

theorem alookup_appendAt {α : Type} (m : List (String × List α)) (k k2 : String) (x : α) :
    alookup (appendAt m k x) k2 =
      if k = k2 then some ((alookup m k).getD [] ++ [x]) else alookup m k2 := by
  induction m with
  | nil => by_cases h : k = k2 <;> simp [appendAt, alookup, h]
  | cons p rest ih =>
    obtain ⟨a, xs⟩ := p
    by_cases hak : a = k
    · subst hak
      by_cases hk2 : a = k2 <;> simp [appendAt, alookup, hk2]
    · have hka : ¬ k = a := fun h => hak h.symm
      by_cases hk2 : a = k2
      · subst hk2
        simp [appendAt, alookup, hak, hka]
      · simp only [appendAt, if_neg hak, alookup, if_neg hk2, ih]

/-- The records of `msgs` whose `Status` is `s`, in order. -/
def statusFiltered (msgs : List Record) (s : String) : List Record :=
  msgs.filter (fun m => alookup m "Status" = some s)

/-- Invariant of the aggregation loop: starting from any accumulators, the
loop succeeds when every record carries a `Status`, each record adds one to
its status count, and the detail rows of each detailed status are appended
in record order. -/
theorem processMessages_spec (rdf : List String) :
    ∀ (msgs : List Record) (stats : StatsMap) (details : DetailsMap),
      (∀ m ∈ msgs, (alookup m "Status").isSome) →
      ∃ S D, processMessages rdf msgs stats details = .ok (S, D) ∧
        (∀ s, (alookup S s).getD 0 =
          (alookup stats s).getD 0 + (statusFiltered msgs s).length) ∧
        (∀ s, alookup D s =
          if rdf.contains s then
            match alookup details s with
            | some rows => some (rows ++ (statusFiltered msgs s).map detailRow)
            | none =>
                if (statusFiltered msgs s).isEmpty then none
                else some ((statusFiltered msgs s).map detailRow)
          else alookup details s) := by
  intro msgs
  induction msgs with
  | nil =>
    intro stats details _
    refine ⟨stats, details, rfl, by simp [statusFiltered], ?_⟩
    intro s
    by_cases hc : s ∈ rdf <;> simp [statusFiltered, hc]
    cases alookup details s <;> simp
  | cons m rest ih =>
    intro stats details hall
    obtain ⟨st, hst⟩ := Option.isSome_iff_exists.mp (hall m (by simp))
    obtain ⟨S, D, hrun, hS, hD⟩ :=
      ih (incrAt stats st)
        (if rdf.contains st then appendAt details st (detailRow m) else details)
        (fun x hx => hall x (by simp [hx]))
    refine ⟨S, D, ?_, ?_, ?_⟩
    · rw [processMessages, hst]
      exact hrun
    · intro s
      rw [hS s, alookup_incrAt]
      by_cases hss : st = s
      · subst hss
        simp only [if_pos rfl, Option.getD_some]
        have : statusFiltered (m :: rest) st = m :: statusFiltered rest st := by
          simp [statusFiltered, List.filter_cons, hst]
        rw [this]
        simp
        omega
      · have : statusFiltered (m :: rest) s = statusFiltered rest s := by
          simp [statusFiltered, List.filter_cons, hst, hss]
        rw [this, if_neg hss]
    · intro s
      rw [hD s]
      by_cases hss : st = s
      · subst hss
        have hflt : statusFiltered (m :: rest) st = m :: statusFiltered rest st := by
          simp [statusFiltered, List.filter_cons, hst]
        by_cases hc : st ∈ rdf
        · cases hdet : alookup details st <;>
            simp [hflt, hc, alookup_appendAt, hdet]
        · simp [hflt, hc]
      · have hflt : statusFiltered (m :: rest) s = statusFiltered rest s := by
          simp [statusFiltered, List.filter_cons, hst, hss]
        rw [hflt]
        by_cases hc : st ∈ rdf <;> by_cases hcs : s ∈ rdf <;>
          simp [hc, hcs, alookup_appendAt, hss]

/-- A detail row holds, under each canonical name of `MESSAGE_FIELDS`,
exactly the value the record holds under the corresponding raw key. -/
theorem alookup_detailRow (m : Record) (fld hdr : String)
    (hmem : (fld, hdr) ∈ MESSAGE_FIELDS) :
    alookup (detailRow m) hdr = alookup m fld := by
  simp only [MESSAGE_FIELDS, List.mem_cons, List.not_mem_nil, or_false,
    Prod.mk.injEq] at hmem
  rcases hmem with ⟨rfl, rfl⟩ | ⟨rfl, rfl⟩ | ⟨rfl, rfl⟩ | ⟨rfl, rfl⟩ | ⟨rfl, rfl⟩ <;>
    · simp only [detailRow, MESSAGE_FIELDS, List.filterMap]
      cases alookup m "ID" <;> cases alookup m "ArrivedAt" <;>
        cases alookup m "ContactAlt" <;> cases alookup m "Status" <;>
        cases alookup m "Subject" <;> simp [alookup]

/-- A detail row holds nothing outside the canonical names. -/
theorem alookup_detailRow_none (m : Record) (hdr : String)
    (hmem : hdr ∉ MESSAGE_FIELDS.map Prod.snd) :
    alookup (detailRow m) hdr = none := by
  simp only [MESSAGE_FIELDS, List.map_cons, List.map_nil, List.mem_cons,
    List.not_mem_nil, or_false, not_or] at hmem
  obtain ⟨h1, h2, h3, h4, h5⟩ := hmem
  simp only [detailRow, MESSAGE_FIELDS, List.filterMap]
  cases alookup m "ID" <;> cases alookup m "ArrivedAt" <;>
    cases alookup m "ContactAlt" <;> cases alookup m "Status" <;>
    cases alookup m "Subject" <;>
    simp [alookup, Ne.symm h1, Ne.symm h2, Ne.symm h3, Ne.symm h4, Ne.symm h5]

/-- C6: from empty accumulators, when every fetched record carries a
`Status`, the aggregation gives each status a count equal to the number of
records with that status (itemized or not); a status appears in the details
map iff it is in the `report_in_detail` set and occurred, and then its rows
are the detail rows of exactly its records, in order; and a detail row maps
each canonical field name to the value of its raw source key, omitting the
canonical fields whose raw key the record lacks. -/
theorem aggregation_correct (rdf : List String) (msgs : List Record)
    (hall : ∀ m ∈ msgs, (alookup m "Status").isSome) :
    (∃ S D, processMessages rdf msgs [] [] = .ok (S, D) ∧
      (∀ s, (alookup S s).getD 0 = (statusFiltered msgs s).length) ∧
      (∀ s, alookup D s =
        if rdf.contains s ∧ ¬ (statusFiltered msgs s).isEmpty then
          some ((statusFiltered msgs s).map detailRow)
        else none)) ∧
    (∀ (m : Record) (fld hdr : String), (fld, hdr) ∈ MESSAGE_FIELDS →
      alookup (detailRow m) hdr = alookup m fld) ∧
    (∀ (m : Record) (hdr : String), hdr ∉ MESSAGE_FIELDS.map Prod.snd →
      alookup (detailRow m) hdr = none) := by
  refine ⟨?_, ?_, ?_⟩
  · obtain ⟨S, D, hrun, hS, hD⟩ := processMessages_spec rdf msgs [] [] hall
    refine ⟨S, D, hrun, fun s => by simpa [alookup] using hS s, ?_⟩
    intro s
    rw [hD s]
    by_cases hc : s ∈ rdf <;>
      by_cases hemp : (statusFiltered msgs s).isEmpty <;>
      simp [alookup, hc, hemp]
  · intro m fld hdr hmem
    exact alookup_detailRow m fld hdr hmem
  · intro m hdr hmem
    exact alookup_detailRow_none m hdr hmem

/-- Fixture: three records with statuses bounce, bounce, delivered. -/
def aggMsgs : List Record :=
  [[("Status", "bounce")], [("Status", "bounce")], [("Status", "delivered")]]

/-- Closed instance of `aggregation_correct` on `aggMsgs` with detail set
containing only bounce. -/
theorem aggregation_correct_witness :
    (∃ S D, processMessages ["bounce"] aggMsgs [] [] = .ok (S, D) ∧
      (∀ s, (alookup S s).getD 0 = (statusFiltered aggMsgs s).length) ∧
      (∀ s, alookup D s =
        if List.contains ["bounce"] s ∧ ¬ (statusFiltered aggMsgs s).isEmpty then
          some ((statusFiltered aggMsgs s).map detailRow)
        else none)) ∧
    (∀ (m : Record) (fld hdr : String), (fld, hdr) ∈ MESSAGE_FIELDS →
      alookup (detailRow m) hdr = alookup m fld) ∧
    (∀ (m : Record) (hdr : String), hdr ∉ MESSAGE_FIELDS.map Prod.snd →
      alookup (detailRow m) hdr = none) :=
  aggregation_correct ["bounce"] aggMsgs (by decide)

/-- A detail row that lacks one of the three rendered keys. -/
def rowIncomplete (row : Record) : Prop :=
  alookup row "date_time" = none ∨ alookup row "contact" = none ∨
    alookup row "subject" = none

/-- Rendering the cells of a row either succeeds or raises `KeyError`. -/
theorem bounceCells_cases (tf tz : String) (row : Record) :
    (∃ s, bounceCells tf tz row = .ok s) ∨ bounceCells tf tz row = .error .keyError := by
  simp only [bounceCells, REPORT_DETAILS_FIELDS, List.foldlM]
  cases alookup row "date_time" <;> cases alookup row "contact" <;>
    cases alookup row "subject" <;>
    simp [req, bind, Except.bind, pure, Except.pure]

/-- Rendering the cells of an incomplete row raises `KeyError`. -/
theorem bounceCells_incomplete (tf tz : String) (row : Record) (h : rowIncomplete row) :
    bounceCells tf tz row = .error .keyError := by
  simp only [bounceCells, REPORT_DETAILS_FIELDS, List.foldlM]
  rcases h with h | h | h <;> rw [h] <;>
    cases alookup row "date_time" <;> cases alookup row "contact" <;>
    cases alookup row "subject" <;>
    simp_all [req, bind, Except.bind, pure, Except.pure]

/-- Rendering one row either succeeds or raises `KeyError`. -/
theorem bounceRow_cases (tf tz : String) (acc : String) (row : Record) :
    (∃ s, bounceRow tf tz acc row = .ok s) ∨ bounceRow tf tz acc row = .error .keyError := by
  rcases bounceCells_cases tf tz row with ⟨s, hs⟩ | hs <;>
    simp [bounceRow, hs, bind, Except.bind, pure, Except.pure]

/-- The row fold either succeeds or raises `KeyError`. -/
theorem bounceRows_fold_cases (tf tz : String) :
    ∀ (rows : List Record) (acc : String),
      (∃ s, rows.foldlM (bounceRow tf tz) acc = (.ok s : Except PyError String)) ∨
      rows.foldlM (bounceRow tf tz) acc = .error .keyError := by
  intro rows
  induction rows with
  | nil => intro acc; exact Or.inl ⟨acc, rfl⟩
  | cons r rest ih =>
    intro acc
    rcases bounceRow_cases tf tz acc r with ⟨s, hs⟩ | hs <;>
      simp only [List.foldlM, hs, bind, Except.bind, pure, Except.pure]
    · exact ih _
    · simp

/-- The row fold over a list containing an incomplete row raises `KeyError`. -/
theorem bounceRows_fold_incomplete (tf tz : String) :
    ∀ (rows : List Record) (acc : String) (row : Record), row ∈ rows → rowIncomplete row →
      rows.foldlM (bounceRow tf tz) acc = (.error .keyError : Except PyError String) := by
  intro rows
  induction rows with
  | nil => intro acc row hmem; exact absurd hmem (List.not_mem_nil row)
  | cons r rest ih =>
    intro acc row hmem hrow
    rcases List.mem_cons.mp hmem with rfl | hmem2
    · simp only [List.foldlM, bounceRow, bounceCells_incomplete tf tz row hrow,
        bind, Except.bind]
    · rcases bounceRow_cases tf tz acc r with ⟨s, hs⟩ | hs <;>
        simp only [List.foldlM, hs, bind, Except.bind, pure, Except.pure]
      exact ih _ row hmem2 hrow

/-- One section either succeeds or raises `KeyError`. -/
theorem bounceSection_cases (config : Config) (stf : String) (acc : String)
    (p : String × List Record) :
    (∃ s, bounceSection config stf acc p = .ok s) ∨
      bounceSection config stf acc p = .error .keyError := by
  rcases bounceRows_fold_cases stf (config.global_settings.timezone.getD "Europe/Amsterdam")
      p.2 "" with ⟨s, hs⟩ | hs <;>
    simp [bounceSection, bounceRows, hs, bind, Except.bind, pure, Except.pure]

/-- `gen_bounce_data_html` on a details map holding an incomplete row under
some status raises `KeyError`. -/
theorem gen_bounce_incomplete (config : Config) (stf : String) :
    ∀ (details : DetailsMap) (s : String) (rows : List Record) (row : Record),
      (s, rows) ∈ details → row ∈ rows → rowIncomplete row →
      gen_bounce_data_html config stf details = .error .keyError := by
  have main : ∀ (details : DetailsMap) (acc : String) (s : String) (rows : List Record)
      (row : Record), (s, rows) ∈ details → row ∈ rows → rowIncomplete row →
      details.foldlM (bounceSection config stf) acc =
        (.error .keyError : Except PyError String) := by
    intro details
    induction details with
    | nil => intro acc s rows row hmem; exact absurd hmem (List.not_mem_nil _)
    | cons p rest ih =>
      intro acc s rows row hmem hrow hinc
      rcases List.mem_cons.mp hmem with rfl | hmem2
      · simp only [List.foldlM, bounceSection, bounceRows,
          bounceRows_fold_incomplete stf _ rows "" row hrow hinc, bind, Except.bind]
      · rcases bounceSection_cases config stf acc p with ⟨s2, hs⟩ | hs <;>
          simp only [List.foldlM, hs, bind, Except.bind, pure, Except.pure]
        exact ih _ s rows row hmem2 hrow hinc
  intro details s rows row hmem hrow hinc
  rw [gen_bounce_data_html]
  simp only [main details "" s rows row hmem hrow hinc, bind, Except.bind]

/-- Recipient extraction succeeds when every recipient carries both fields. -/
theorem recipientPairs_ok (rs : List RecipientCfg)
    (h : ∀ r ∈ rs, r.to_email.isSome ∧ r.to_name.isSome) :
    recipientPairs rs =
      .ok (rs.map (fun r => (r.to_email.getD "", r.to_name.getD ""))) := by
  induction rs with
  | nil => rfl
  | cons r rest ih =>
    obtain ⟨he, hn⟩ := h r (by simp)
    obtain ⟨e, he2⟩ := Option.isSome_iff_exists.mp he
    obtain ⟨n, hn2⟩ := Option.isSome_iff_exists.mp hn
    have ihr := ih (fun x hx => h x (by simp [hx]))
    rw [recipientPairs] at ihr ⊢
    rw [List.mapM_cons, ihr]
    simp [he2, hn2, req, bind, Except.bind, pure, Except.pure]

/-- C10: the aggregation omits a canonical detail field whenever the raw
record lacks its source key; rendering the details HTML subscripts the keys
`date_time`, `contact` and `subject` of every itemized row, so a details map
holding a row that lacks one of them makes `gen_bounce_data_html` raise an
uncaught `KeyError`; and `send_report`, when it reaches rendering (skip
policy not triggered, configuration fields present), propagates that
`KeyError` instead of returning a result. -/
theorem render_requires_detail_fields :
    (∀ (m : Record) (fld hdr : String), (fld, hdr) ∈ MESSAGE_FIELDS →
      alookup m fld = none → alookup (detailRow m) hdr = none) ∧
    (∀ (config : Config) (stf : String) (details : DetailsMap) (s : String)
      (rows : List Record) (row : Record), (s, rows) ∈ details → row ∈ rows →
      rowIncomplete row → gen_bounce_data_html config stf details = .error .keyError) ∧
    (∀ (config : Config) (sub : EnrichedSub) (stats : StatsMap) (details : DetailsMap)
      (last_ts current_ts : Int) (net : Message → NetResp) (pd : ProfileCfg)
      (s : String) (rows : List Record) (row : Record),
      sub.profile_details = some pd →
      (((sub.skip_if_no_details.getD (pd.skip_if_no_details.getD false)) &&
          details.isEmpty) ||
        ((sub.skip_if_no_data.getD (pd.skip_if_no_data.getD false)) &&
          stats.isEmpty)) = false →
      pd.subject.isSome → sub.name.isSome → pd.from_email.isSome → pd.from_name.isSome →
      (∃ rs, sub.recipients = some rs ∧ ∀ r ∈ rs, r.to_email.isSome ∧ r.to_name.isSome) →
      pd.template_id.isSome →
      (s, rows) ∈ details → row ∈ rows → rowIncomplete row →
      send_report config sub stats details last_ts current_ts net = .error .keyError) := by
  refine ⟨?_, ?_, ?_⟩
  · intro m fld hdr hmem h
    exact (alookup_detailRow m fld hdr hmem).trans h
  · intro config stf details s rows row hmem hrow hinc
    exact gen_bounce_incomplete config stf details s rows row hmem hrow hinc
  · intro config sub stats details last_ts current_ts net pd s rows row hpd hskip
      hsubj hname hfe hfn hrec htid hmem hrow hinc
    obtain ⟨subjT, hsubjT⟩ := Option.isSome_iff_exists.mp hsubj
    obtain ⟨nm, hnm⟩ := Option.isSome_iff_exists.mp hname
    obtain ⟨fe, hfe2⟩ := Option.isSome_iff_exists.mp hfe
    obtain ⟨fn, hfn2⟩ := Option.isSome_iff_exists.mp hfn
    obtain ⟨rs, hrs, hwf⟩ := hrec
    obtain ⟨tid, htid2⟩ := Option.isSome_iff_exists.mp htid
    unfold send_report
    rw [hpd]
    simp only [hsubjT, hnm, hfe2, hfn2, hrs, htid2, recipientPairs_ok rs hwf,
      gen_bounce_incomplete config (pd.time_format.getD
        (config.global_settings.time_format.getD "%Y-%m-%d %H:%M:%S"))
        details s rows row hmem hrow hinc,
      req, bind, Except.bind, hskip, Bool.false_eq_true, if_false, pure, Except.pure]

/-- Fixture: a detail row with no `contact` key. -/
def rowNoContact : Record := [("date_time", "2024-01-01T00:00:00"), ("subject", "s")]

/-- Fixture: a details map holding the incomplete row under `bounce`. -/
def detailsBad : DetailsMap := [("bounce", [rowNoContact])]

/-- Fixture: a complete profile for dispatch tests. -/
def pdFull : ProfileCfg :=
  { template_id := some 1, subject := some "Report \x7b\x7d \x7b\x7d",
    from_email := some "f@x", from_name := some "F" }

/-- Fixture: a validated subaccount referencing `pdFull`, no skip flags. -/
def subFull : EnrichedSub :=
  { name := some "acct1", profile := some "p", report_days := some "1",
    skip_if_no_details := none, skip_if_no_data := none, recipients := some [],
    profile_details := some pdFull, valid := true }

/-- Closed instance of `render_requires_detail_fields`. -/
theorem render_requires_detail_fields_witness :
    alookup (detailRow []) "contact" = none ∧
    gen_bounce_data_html {} "%F" detailsBad = .error .keyError ∧
    send_report {} subFull [("bounce", 1)] detailsBad 0 1 (fun _ => NetResp.status 200) =
      .error .keyError :=
  ⟨render_requires_detail_fields.1 [] "ContactAlt" "contact" (by decide) rfl,
   render_requires_detail_fields.2.1 {} "%F" detailsBad "bounce" [rowNoContact] rowNoContact
     (by simp [detailsBad]) (by simp) (Or.inr (Or.inl rfl)),
   render_requires_detail_fields.2.2 {} subFull [("bounce", 1)] detailsBad 0 1
     (fun _ => NetResp.status 200) pdFull "bounce" [rowNoContact] rowNoContact rfl rfl
     (by decide) (by decide) (by decide) (by decide) ⟨[], rfl, by simp⟩ (by decide)
     (by simp [detailsBad]) (by simp) (Or.inr (Or.inl rfl))⟩

/-- The posting step at the end of `send_report` (source lines 242-263)
returns the built message and a boolean, whatever the network answers. -/
theorem send_post_step (net : Message → NetResp) (m : Message) :
    ∃ b, (match net m with
      | .transport => pure ([m], false)
      | .status code => pure ([m], if code = 200 then true else false) :
        Except PyError (List Message × Bool)) = .ok ([m], b) := by
  cases net m <;> exact ⟨_, rfl⟩

/-- C9 (amended): when `send_report` reaches dispatch, the message subject is
the profile subject template interpolated with the subaccount name and a
subject date rendered from the window end in the global timezone with the
global `time_format` value when set — the same key the report time format
reads — falling back to `%Y-%m-%d` only when `time_format` is unset; the
`rep_start`/`rep_end` display timestamps use the global `time_format` with
fallback `%Y-%m-%d %H:%M:%S`. -/
theorem subject_and_report_formats (config : Config) (sub : EnrichedSub)
    (stats : StatsMap) (details : DetailsMap) (last_ts current_ts : Int)
    (net : Message → NetResp) (pd : ProfileCfg) (subjT nm fe fn : String) (tid : Int)
    (rs : List RecipientCfg) (bd : String)
    (hpd : sub.profile_details = some pd)
    (hskip : (((sub.skip_if_no_details.getD (pd.skip_if_no_details.getD false)) &&
        details.isEmpty) ||
      ((sub.skip_if_no_data.getD (pd.skip_if_no_data.getD false)) &&
        stats.isEmpty)) = false)
    (hsubj : pd.subject = some subjT) (hname : sub.name = some nm)
    (hfe : pd.from_email = some fe) (hfn : pd.from_name = some fn)
    (hrs : sub.recipients = some rs)
    (hwf : ∀ r ∈ rs, r.to_email.isSome ∧ r.to_name.isSome)
    (htid : pd.template_id = some tid)
    (hbd : gen_bounce_data_html config
        (pd.time_format.getD (config.global_settings.time_format.getD "%Y-%m-%d %H:%M:%S"))
        details = .ok bd) :
    ∃ b, send_report config sub stats details last_ts current_ts net =
      .ok ([{ from_email := fe, from_name := fn,
              recipients := rs.map (fun r => (r.to_email.getD "", r.to_name.getD "")),
              template_id := tid,
              subject := pyFormat subjT [nm, time_from_timestamp current_ts
                (config.global_settings.time_format.getD "%Y-%m-%d")
                (config.global_settings.timezone.getD "Europe/Amsterdam")],
              delivery_stats :=
                if stats.isEmpty then
                  (alookup config.status_translations "no_data").getD "No data"
                else gen_message_stats_html config stats,
              bounce_data := bd,
              rep_start := time_from_timestamp last_ts
                (config.global_settings.time_format.getD "%Y-%m-%d %H:%M:%S")
                (config.global_settings.timezone.getD "Europe/Amsterdam"),
              rep_end := time_from_timestamp current_ts
                (config.global_settings.time_format.getD "%Y-%m-%d %H:%M:%S")
                (config.global_settings.timezone.getD "Europe/Amsterdam"),
              sub_account := nm }], b) := by
  unfold send_report
  rw [hpd]
  simp only [hsubj, hname, hfe, hfn, hrs, htid, recipientPairs_ok rs hwf, hbd,
    req, bind, Except.bind, hskip, Bool.false_eq_true, if_false]
  exact send_post_step net _

/-- Fixture: global settings that set `time_format` to a full timestamp
format. -/
def gsFull : GlobalSettings :=
  { timezone := some "Europe/Amsterdam", time_format := some "%Y-%m-%d %H:%M:%S" }

/-- Fixture: a configuration whose global `time_format` is set. -/
def cfgFull : Config := { global_settings := gsFull }

/-- The subject of a singleton dispatch result. -/
def sentSubject (r : Except PyError (List Message × Bool)) : Option String :=
  match r with
  | .ok ([m], _) => some m.subject
  | _ => none

/-- C9, counterexample: with the global `time_format` set to
`%Y-%m-%d %H:%M:%S`, the subject date is rendered with that full timestamp
format, not with a date-only format: the rendered subject differs from the
subject a date-only `%Y-%m-%d` rendering would give. -/
theorem subject_date_not_date_only :
    sentSubject (send_report cfgFull subFull [("sent", 1)] [] 0 5
        (fun _ => NetResp.status 200)) =
      some (pyFormat "Report \x7b\x7d \x7b\x7d"
        ["acct1", time_from_timestamp 5 "%Y-%m-%d %H:%M:%S" "Europe/Amsterdam"]) ∧
    sentSubject (send_report cfgFull subFull [("sent", 1)] [] 0 5
        (fun _ => NetResp.status 200)) ≠
      some (pyFormat "Report \x7b\x7d \x7b\x7d"
        ["acct1", time_from_timestamp 5 "%Y-%m-%d" "Europe/Amsterdam"]) := by
  constructor
  · decide
  · decide

/-- Closed instance of `subject_and_report_formats`. -/
theorem subject_and_report_formats_witness :
    ∃ b, send_report cfgFull subFull [("sent", 1)] [] 0 5 (fun _ => NetResp.status 200) =
      .ok ([{ from_email := "f@x", from_name := "F",
              recipients := ([] : List RecipientCfg).map
                (fun r => (r.to_email.getD "", r.to_name.getD "")),
              template_id := 1,
              subject := pyFormat "Report \x7b\x7d \x7b\x7d"
                ["acct1", time_from_timestamp 5
                  (cfgFull.global_settings.time_format.getD "%Y-%m-%d")
                  (cfgFull.global_settings.timezone.getD "Europe/Amsterdam")],
              delivery_stats :=
                if ([("sent", 1)] : StatsMap).isEmpty then
                  (alookup cfgFull.status_translations "no_data").getD "No data"
                else gen_message_stats_html cfgFull [("sent", 1)],
              bounce_data := "undefined",
              rep_start := time_from_timestamp 0
                (cfgFull.global_settings.time_format.getD "%Y-%m-%d %H:%M:%S")
                (cfgFull.global_settings.timezone.getD "Europe/Amsterdam"),
              rep_end := time_from_timestamp 5
                (cfgFull.global_settings.time_format.getD "%Y-%m-%d %H:%M:%S")
                (cfgFull.global_settings.timezone.getD "Europe/Amsterdam"),
              sub_account := "acct1" }], b) :=
  subject_and_report_formats cfgFull subFull [("sent", 1)] [] 0 5
    (fun _ => NetResp.status 200) pdFull "Report \x7b\x7d \x7b\x7d" "acct1" "f@x" "F" 1
    [] "undefined" rfl rfl rfl rfl rfl rfl rfl (by simp) rfl (by decide)

/-- The dispatch tail commits the watermark exactly on `send_report = True`:
the state is rewritten at the resolved subaccount id iff the dispatch flag is
`some true`, and is untouched otherwise. -/
theorem dispatchStep_step (ctx : Ctx) (state : Option StateMap) (sub : EnrichedSub)
    (name subaccount_id : String) (last_ts : Int) (rdf : List String)
    (message_data : List Record) (out : StepOut)
    (h : (dispatchStep ctx state sub name subaccount_id last_ts rdf message_data).2 =
      .ok out) :
    (out.dispatched = some true → ∃ sid m0, state = some m0 ∧ out.sid = some sid ∧
      out.state = some (setIdx m0 sid ctx.current_ts)) ∧
    (out.dispatched ≠ some true → out.state = state) := by
  unfold dispatchStep pySetItem at h
  repeat' split at h
  all_goals simp_all
  all_goals try (cases h; simp)
  all_goals (cases state <;> simp_all)

/-- One processing-loop iteration commits the watermark exactly on
`send_report = True` and leaves the state untouched on every other path. -/
theorem processOne_step (ctx : Ctx) (state : Option StateMap) (sub : EnrichedSub)
    (out : StepOut) (h : (processOne ctx state sub).2 = .ok out) :
    (out.dispatched = some true → ∃ sid m0, state = some m0 ∧ out.sid = some sid ∧
      out.state = some (setIdx m0 sid ctx.current_ts)) ∧
    (out.dispatched ≠ some true → out.state = state) := by
  unfold processOne stateGet at h
  repeat' split at h
  all_goals try (exact dispatchStep_step _ _ _ _ _ _ _ _ _ h)
  all_goals simp_all
  all_goals try (cases h; simp)

/-- Across the processing loop, starting from a mapping whose watermarks are
at most the run timestamp, every key keeps its value or is advanced to the
run timestamp, and absent keys stay absent or appear at the run timestamp. -/
theorem runLoop_monotone (ctx : Ctx) :
    ∀ (subs : List EnrichedSub) (m : StateMap),
      (∀ k v, alookup m k = some v → v ≤ ctx.current_ts) →
      ∀ st2, (runLoop ctx subs (some m)).2 = .ok st2 →
      ∃ m2, st2 = some m2 ∧
        (∀ k v, alookup m k = some v → ∃ v2, alookup m2 k = some v2 ∧ v ≤ v2 ∧
          (v2 = v ∨ v2 = ctx.current_ts)) ∧
        (∀ k, alookup m k = none →
          alookup m2 k = none ∨ alookup m2 k = some ctx.current_ts) ∧
        (∀ k v2, alookup m2 k = some v2 → v2 ≤ ctx.current_ts) := by
  intro subs
  induction subs with
  | nil =>
    intro m hmono st2 h
    simp only [runLoop] at h
    cases h
    exact ⟨m, rfl, fun k v hk => ⟨v, hk, le_refl v, Or.inl rfl⟩, fun k hk => Or.inl hk, hmono⟩
  | cons sub rest ih =>
    intro m hmono st2 h
    rw [runLoop] at h
    rcases hpo : processOne ctx (some m) sub with ⟨tr, r⟩
    rw [hpo] at h
    cases r with
    | error e => simp at h
    | ok out =>
      rcases hrl : runLoop ctx rest out.state with ⟨tr2, r2⟩
      simp only at h
      rw [hrl] at h
      simp only at h
      subst h
      obtain ⟨hdisp, hkeep⟩ := processOne_step ctx (some m) sub out (by rw [hpo])
      by_cases hd : out.dispatched = some true
      · obtain ⟨sid, m0, hm0, hsid, hst⟩ := hdisp hd
        obtain rfl : m = m0 := by injection hm0
        have hmono2 : ∀ k v, alookup (setIdx m sid ctx.current_ts) k = some v →
            v ≤ ctx.current_ts := by
          intro k v hk
          rw [alookup_setIdx] at hk
          by_cases hks : sid = k
          · rw [if_pos hks] at hk
            injection hk with hk2
            omega
          · rw [if_neg hks] at hk
            exact hmono k v hk
        have hrl2 : (runLoop ctx rest (some (setIdx m sid ctx.current_ts))).2 = .ok st2 := by
          rw [← hst, hrl]
        obtain ⟨m2, rfl, hsome, hnone, hbound⟩ :=
          ih (setIdx m sid ctx.current_ts) hmono2 st2 hrl2
        refine ⟨m2, rfl, ?_, ?_, hbound⟩
        · intro k v hk
          by_cases hks : sid = k
          · obtain ⟨v2, hv2, hle, hor⟩ := hsome k ctx.current_ts
              (by rw [alookup_setIdx, if_pos hks])
            have hvle : v ≤ ctx.current_ts := hmono k v hk
            have hv2eq : v2 = ctx.current_ts := by rcases hor with h1 | h1 <;> omega
            exact ⟨v2, hv2, by omega, Or.inr hv2eq⟩
          · exact hsome k v (by rw [alookup_setIdx, if_neg hks]; exact hk)
        · intro k hk
          by_cases hks : sid = k
          · obtain ⟨v2, hv2, hle, hor⟩ := hsome k ctx.current_ts
              (by rw [alookup_setIdx, if_pos hks])
            have hv2eq : v2 = ctx.current_ts := by rcases hor with h1 | h1 <;> omega
            exact Or.inr (by rw [hv2, hv2eq])
          · exact hnone k (by rw [alookup_setIdx, if_neg hks]; exact hk)
      · have hst : out.state = some m := hkeep hd
        have hrl2 : (runLoop ctx rest (some m)).2 = .ok st2 := by
          rw [← hst, hrl]
        exact ih m hmono st2 hrl2

/-- C1: per processed subaccount, the in-memory watermark commit happens
exactly when `send_report` returns `True`: the step leaves the state with
that subaccount's id set to the run timestamp iff the dispatch flag is
`some true`, and leaves it exactly as it was otherwise (policy skips,
dispatch failures, schedule and validity skips, fetch failures); and over
the whole processing loop, starting from persisted watermarks that are at
most the run timestamp, no watermark decreases: every present key keeps its
value or advances to the run timestamp, and absent keys stay absent unless
set to the run timestamp. -/
theorem watermark_monotone (ctx : Ctx) (m : StateMap)
    (hmono : ∀ k v, alookup m k = some v → v ≤ ctx.current_ts) :
    (∀ (state : Option StateMap) (sub : EnrichedSub) (out : StepOut),
      (processOne ctx state sub).2 = .ok out →
      (out.dispatched = some true → ∃ sid m0, state = some m0 ∧ out.sid = some sid ∧
        out.state = some (setIdx m0 sid ctx.current_ts)) ∧
      (out.dispatched ≠ some true → out.state = state)) ∧
    (∀ (subs : List EnrichedSub) (st2 : Option StateMap),
      (runLoop ctx subs (some m)).2 = .ok st2 →
      ∃ m2, st2 = some m2 ∧
        (∀ k v, alookup m k = some v → ∃ v2, alookup m2 k = some v2 ∧ v ≤ v2 ∧
          (v2 = v ∨ v2 = ctx.current_ts)) ∧
        (∀ k, alookup m k = none →
          alookup m2 k = none ∨ alookup m2 k = some ctx.current_ts)) := by
  constructor
  · intro state sub out h
    exact processOne_step ctx state sub out h
  · intro subs st2 h
    obtain ⟨m2, rfl, hsome, hnone, _⟩ := runLoop_monotone ctx subs m hmono st2 h
    exact ⟨m2, rfl, hsome, hnone⟩

/-- Fixture: an oracle whose every request fails at the transport layer. -/
def oracleDown : Oracle :=
  { dirProbe := Resp.transport, dirPages := fun _ _ => Resp.transport,
    msgProbe := fun _ => Resp.transport, msgPages := fun _ _ _ => Resp.transport,
    sendNet := fun _ _ => NetResp.transport }

/-- Fixture: a loop context at run timestamp 10 with empty directories. -/
def ctxTen : Ctx :=
  { config := {}, profiles := [], dir := [], day_of_week := '1', current_ts := 10,
    default_last_ts := 0, oracle := oracleDown }

/-- Closed instance of `watermark_monotone` at a one-entry watermark map. -/
theorem watermark_monotone_witness :
    (∀ (state : Option StateMap) (sub : EnrichedSub) (out : StepOut),
      (processOne ctxTen state sub).2 = .ok out →
      (out.dispatched = some true → ∃ sid m0, state = some m0 ∧ out.sid = some sid ∧
        out.state = some (setIdx m0 sid ctxTen.current_ts)) ∧
      (out.dispatched ≠ some true → out.state = state)) ∧
    (∀ (subs : List EnrichedSub) (st2 : Option StateMap),
      (runLoop ctxTen subs (some ([("1", 5)] : StateMap))).2 = .ok st2 →
      ∃ m2, st2 = some m2 ∧
        (∀ k v, alookup ([("1", 5)] : StateMap) k = some v → ∃ v2, alookup m2 k = some v2 ∧ v ≤ v2 ∧
          (v2 = v ∨ v2 = ctxTen.current_ts)) ∧
        (∀ k, alookup ([("1", 5)] : StateMap) k = none →
          alookup m2 k = none ∨ alookup m2 k = some ctxTen.current_ts)) :=
  watermark_monotone ctxTen ([("1", 5)] : StateMap) (by
    intro k v h
    simp only [alookup] at h
    split at h
    · injection h with h2
      show v ≤ 10
      omega
    · simp [alookup] at h)

/-- The dispatch tail never emits a state-file write. -/
theorem dispatchStep_no_write (ctx : Ctx) (state : Option StateMap) (sub : EnrichedSub)
    (name subaccount_id : String) (last_ts : Int) (rdf : List String)
    (message_data : List Record) :
    ∀ e ∈ (dispatchStep ctx state sub name subaccount_id last_ts rdf message_data).1,
      e.isWrite = false := by
  unfold dispatchStep
  intro e he
  rcases hpm : processMessages rdf message_data [] [] with e2 | ⟨stats, details⟩ <;>
    rw [hpm] at he
  · simp at he
  · simp only at he
    rcases hsr : send_report ctx.config sub stats details last_ts ctx.current_ts
        (ctx.oracle.sendNet name) with e2 | ⟨msgs, b⟩ <;> rw [hsr] at he
    · simp at he
    · cases b
      · simp at he
        subst he
        rfl
      · simp only at he
        rcases hps : pySetItem state subaccount_id ctx.current_ts with e2 | st2 <;>
          rw [hps] at he
        · simp at he
        · simp at he
          subst he
          rfl

/-- One processing-loop iteration never emits a state-file write. -/
theorem processOne_no_write (ctx : Ctx) (state : Option StateMap) (sub : EnrichedSub) :
    ∀ e ∈ (processOne ctx state sub).1, e.isWrite = false := by
  unfold processOne stateGet
  repeat' split
  all_goals intro e he
  all_goals try (exact dispatchStep_no_write _ _ _ _ _ _ _ _ e he)
  all_goals simp_all [Ev.isWrite]

/-- The whole processing loop never emits a state-file write. -/
theorem runLoop_no_write (ctx : Ctx) :
    ∀ (subs : List EnrichedSub) (state : Option StateMap),
      ∀ e ∈ (runLoop ctx subs state).1, e.isWrite = false := by
  intro subs
  induction subs with
  | nil => intro state e he; simp [runLoop] at he
  | cons sub rest ih =>
    intro state e he
    rw [runLoop] at he
    rcases hpo : processOne ctx state sub with ⟨tr, r⟩
    rw [hpo] at he
    cases r with
    | error e2 =>
      simp only at he
      exact processOne_no_write ctx state sub e (by rw [hpo]; exact he)
    | ok out =>
      rcases hrl : runLoop ctx rest out.state with ⟨tr2, r2⟩
      simp only at he
      rw [hrl] at he
      simp only at he
      rcases List.mem_append.mp he with h1 | h2
      · exact processOne_no_write ctx state sub e (by rw [hpo]; exact h1)
      · exact ih out.state e (by rw [hrl]; exact h2)

/-- The write-once trace shape of a run outcome: a completed run's trace is
a write-free prefix followed by exactly one state write carrying the final
state, as the last event; a crashed run's trace holds no write at all; an
early exit emits nothing. -/
def WriteOnce : List Ev × RunResult → Prop := fun pr =>
  match pr with
  | (tr, .completed st) => ∃ tr0, tr = tr0 ++ [Ev.stateWrite st] ∧
      ∀ e ∈ tr0, e.isWrite = false
  | (tr, .crashed _) => ∀ e ∈ tr, e.isWrite = false
  | (tr, .exited _) => tr = []

/-- `finishRun` turns a write-free loop trace into a write-once run. -/
theorem finishRun_write_once (pr : List Ev × Except PyError (Option StateMap))
    (h : ∀ e ∈ pr.1, e.isWrite = false) : WriteOnce (finishRun pr) := by
  rcases pr with ⟨tr, r⟩
  cases r with
  | error e => exact h
  | ok st2 => exact ⟨tr, rfl, h⟩

/-- C7: every run is write-once: a completed run writes the state file
exactly once, as its final event, after the whole processing loop — nothing
earlier in the trace is a state-file write, so no write happens
per-subaccount; a run that crashes or exits early performs no state-file
write at all, leaving the prior state file intact. -/
theorem state_write_once (config : Config) (stateContent : StateFileContent)
    (day_of_week : Char) (current_ts : Int) (oracle : Oracle) :
    WriteOnce (main config stateContent day_of_week current_ts oracle) := by
  unfold main
  repeat' split
  all_goals first
    | exact finishRun_write_once _ (runLoop_no_write _ _ _)
    | simp [WriteOnce]

/-- Closed instance of `state_write_once`. -/
theorem state_write_once_witness :
    WriteOnce (main {} StateFileContent.missing '1' 10 oracleDown) :=
  state_write_once {} StateFileContent.missing '1' 10 oracleDown

/-- Fixture: a complete profile configuration entry. -/
def profileP : ProfileCfg :=
  { template_id := some 1, subject := some "Report \x7b\x7d \x7b\x7d",
    from_email := some "e@x", from_name := some "E" }

/-- Fixture: a well-formed subaccount entry scheduled on weekday 1. -/
def subCfg1 : SubaccountCfg :=
  { name := some "acct1", profile := some "p", report_days := some "1",
    recipients := some [] }

/-- Fixture: a configuration with one profile and one valid subaccount. -/
def cfgOne : Config :=
  { profiles := [("p", profileP)], subaccount_reports := [subCfg1] }

/-- Fixture: the provider directory record for `acct1`. -/
def dirRecord : Record :=
  [("Name", "acct1"), ("ID", "7"), ("APIKey", "k"), ("SecretKey", "s")]

/-- Fixture: an oracle whose directory fetch succeeds with one subaccount
and whose other requests fail at the transport layer. -/
def oracleDir : Oracle :=
  { dirProbe := Resp.body (some 1) none,
    dirPages := fun _ _ => Resp.body (some 1) (some [dirRecord]),
    msgProbe := fun _ => Resp.transport, msgPages := fun _ _ _ => Resp.transport,
    sendNet := fun _ _ => NetResp.transport }

/-- The directory fetch of the fixtures resolves to the one `acct1` entry. -/
theorem oracleDir_fetch :
    get_subaccount_data oracleDir.dirProbe oracleDir.dirPages =
      .ok (some [("acct1", ⟨"7", "k", "s"⟩)]) := by
  simp [get_subaccount_data, get_mailjet_data_list, fetchLoop, BATCH_LIMIT, oracleDir,
    dirRecord, req, alookup, setIdx, Except.map, bind, Except.bind, pure, Except.pure,
    List.foldlM]

/-- C3: a state file whose JSON parses to null leaves the `state` variable
holding `None` after the informational log — not an empty mapping — and the
run then crashes with an `AttributeError` at the first per-subaccount
watermark read; a state file with unparsable content (such as an empty
file) raises an uncaught `json.JSONDecodeError` at load; only a missing
state file starts fresh with an empty mapping. -/
theorem null_state_file_crashes :
    loadState StateFileContent.jsonNull = .ok none ∧
    loadState StateFileContent.unparsable = .error .jsonDecodeError ∧
    loadState StateFileContent.missing = .ok (some []) ∧
    stateGet none "7" 0 = .error .attributeError ∧
    main cfgOne StateFileContent.jsonNull '1' 100 oracleDir =
      ([], .crashed .attributeError) := by
  refine ⟨rfl, rfl, rfl, rfl, ?_⟩
  unfold main
  rw [oracleDir_fetch]
  decide

/-- Fixture: a well-formed subaccount entry scheduled only on weekday 3. -/
def subCfg2 : SubaccountCfg :=
  { name := some "acct2", profile := some "p", report_days := some "3",
    recipients := some [] }

/-- Fixture: a configuration whose first subaccount entry is an empty
mapping (no `name`) followed by a well-formed entry. -/
def cfgBadFirst : Config :=
  { profiles := [("p", profileP)], subaccount_reports := [{}, subCfg2] }

/-- Fixture: the same configuration without the malformed entry. -/
def cfgGoodOnly : Config :=
  { profiles := [("p", profileP)], subaccount_reports := [subCfg2] }

/-- C8: the validation loop does mark an entry with no `name` invalid and
moves on, but the processing loop then evaluates `subaccount["name"]` inside
its warning log for that invalid entry and raises an uncaught `KeyError`:
the run aborts with an empty trace — the remaining well-formed subaccount is
never processed and no state is written — while the same run without the
malformed entry completes, processes the other subaccount and writes the
state file. -/
theorem invalid_entry_aborts_run :
    (validateSub [("p", validateProfile profileP)] "01234" {}).valid = false ∧
    main cfgBadFirst StateFileContent.missing '1' 100 oracleDir =
      ([], .crashed .keyError) ∧
    main cfgGoodOnly StateFileContent.missing '1' 100 oracleDir =
      ([.skippedSchedule "acct2", .stateWrite (some [])], .completed (some [])) := by
  refine ⟨rfl, ?_, ?_⟩
  · unfold main
    rw [oracleDir_fetch]
    decide
  · unfold main
    rw [oracleDir_fetch]
    decide

end MailjetReport
